import Mathlib

/-!
Shallow embedding of a small Express HTTP service: a JSON-file-backed user
store (create / list / get / delete / listActive) and an in-memory task
registry driven by a worker thread (submit / completion events / getStatus).

Pure request/response logic is translated from the handler bodies; the file
system is modelled by passing the user collection explicitly (a read returns
it, a write is the returned collection), `randomUUID()` and timestamps are
passed in as parameters, and the worker thread is modelled by explicit
completion events applied to the registry.
-/

namespace NodeBasics

/-- A user record: `{id, name, email, createdAt, isActive?}`.
`isActive` is an optional boolean, hence `Option Bool`. -/
structure User where
  id : String
  name : String
  email : String
  createdAt : String
  isActive : Option Bool := none
  deriving Repr, DecidableEq

/-! ### UUID format check

Embeds the handlers' regex
`/^[0-9a-f]{8}-[0-9a-f]{4}-[0-9a-f]{4}-[0-9a-f]{4}-[0-9a-f]{12}$/i`:
five dash-separated groups of hex digits with lengths 8-4-4-4-12,
case-insensitive. -/

/-- Case-insensitive hex digit, `[0-9a-f]` under the `i` flag. -/
def isHexDigit (c : Char) : Bool :=
  (Char.ofNat 48 ≤ c && c ≤ Char.ofNat 57) ||
  (Char.ofNat 97 ≤ c && c ≤ Char.ofNat 102) ||
  (Char.ofNat 65 ≤ c && c ≤ Char.ofNat 70)

/-- Split a character list at every occurrence of `sep`
(the single-character case of JS `String.split` / regex group separation). -/
def splitOnSep (sep : Char) : List Char → List (List Char)
  | [] => [[]]
  | c :: cs =>
    match splitOnSep sep cs, decEq c sep with
    | groups, isTrue _ => [] :: groups
    | g :: gs, isFalse _ => (c :: g) :: gs
    | [], isFalse _ => [[c]]

/-- `uuidRegex.test id`: the canonical UUID textual shape,
8-4-4-4-12 hex groups. -/
def isUuid (s : String) : Bool :=
  match (splitOnSep (Char.ofNat 45) s.data).map
      (fun g => (g.length, g.all isHexDigit)) with
  | [(8, true), (4, true), (4, true), (4, true), (12, true)] => true
  | _ => false

/-! ### Email format check

Embeds zod's default email pattern used by `z.email()`:
`/^(?!\.)(?!.*\.\.)([A-Za-z0-9_'+\-\.]*)[A-Za-z0-9_+-]@([A-Za-z0-9][A-Za-z0-9\-]*\.)+[A-Za-z]{2,}$/`. -/

/-- Characters allowed in the local part: `[A-Za-z0-9_'+\-\.]`. -/
def isLocalChar (c : Char) : Bool :=
  c.isAlphanum || c = Char.ofNat 95 || c = Char.ofNat 39 ||
  c = Char.ofNat 43 || c = Char.ofNat 45 || c = Char.ofNat 46

/-- Characters allowed as the final local-part character: `[A-Za-z0-9_+-]`
(no dot). -/
def isLocalEndChar (c : Char) : Bool :=
  c.isAlphanum || c = Char.ofNat 95 || c = Char.ofNat 43 || c = Char.ofNat 45

/-- The `(?!.*\.\.)` lookahead: no two consecutive dots anywhere. -/
def noDoubleDot : List Char → Bool
  | c1 :: c2 :: cs =>
    !(c1 = Char.ofNat 46 && c2 = Char.ofNat 46) && noDoubleDot (c2 :: cs)
  | _ => true

/-- One domain label before a dot: `[A-Za-z0-9][A-Za-z0-9\-]*`. -/
def isDomainLabel : List Char → Bool
  | [] => false
  | c :: cs => c.isAlphanum && cs.all (fun d => d.isAlphanum || d = Char.ofNat 45)

/-- The trailing top-level label: `[A-Za-z]{2,}`. -/
def isTld (g : List Char) : Bool :=
  decide (2 ≤ g.length) && g.all Char.isAlpha

/-- The domain side `([A-Za-z0-9][A-Za-z0-9\-]*\.)+[A-Za-z]{2,}`:
splitting at dots gives at least one label followed by a TLD. -/
def isEmailDomain (g : List Char) : Bool :=
  match (splitOnSep (Char.ofNat 46) g).reverse with
  | tld :: labels => isTld tld && !labels.isEmpty && labels.all isDomainLabel
  | [] => false

/-- The local side `([A-Za-z0-9_'+\-\.]*)[A-Za-z0-9_+-]`: nonempty, every
character allowed, the last one not a dot. -/
def isEmailLocal : List Char → Bool
  | [] => false
  | c :: cs =>
    match (c :: cs).reverse with
    | [] => false
    | lastc :: _ => (c :: cs).all isLocalChar && isLocalEndChar lastc

/-- `z.email()`'s default regex as a whole: not starting with a dot, no `..`,
local part `@` domain part (both charsets exclude `@`, so the string splits
at a unique `@`). -/
def isEmail (s : String) : Bool :=
  match splitOnSep (Char.ofNat 64) s.data with
  | [localPart, domainPart] =>
    (match localPart with
     | [] => false
     | c :: _ => !(c = Char.ofNat 46)) &&
    noDoubleDot s.data &&
    isEmailLocal localPart && isEmailDomain domainPart
  | _ => false

/-! ### File read (`readUsers`)

`readUsers` wraps `readFile` + `JSON.parse` in a `try`/`catch` that turns
every failure (missing file, I/O error, unparsable JSON) into the empty
collection. The possible outcomes of the read are made explicit. -/

/-- Outcome of reading `data/users.json`. -/
inductive ReadOutcome where
  | ok (users : List User)
  | fileMissing
  | ioError
  | badJson
  deriving Repr, DecidableEq

/-- `readUsers()`: a successful read and parse yields the stored collection;
any thrown error is caught and yields `[]`. -/
def readUsers : ReadOutcome → List User
  | .ok users => users
  | .fileMissing => []
  | .ioError => []
  | .badJson => []

/-! ### Validation (`UserSchema`) -/

/-- One entry of the `error.issues` array a failed `UserSchema.parse`
reports. -/
inductive UserIssue where
  | nameTooShort
  | invalidEmail
  deriving Repr, DecidableEq

/-- The issues `UserSchema.parse({name, email})` collects:
`name: z.string().min(2)` and `email: z.email()`; zod reports all failing
fields at once. -/
def userIssues (name email : String) : List UserIssue :=
  (if name.length < 2 then [UserIssue.nameTooShort] else []) ++
  (if isEmail email then [] else [UserIssue.invalidEmail])

/-! ### User store operations -/

/-- Response of `POST /users`: 201 with the created record, 400 with the
validation issues, or 409 on duplicate email. -/
inductive CreateResult where
  | created (user : User)
  | validationError (issues : List UserIssue)
  | conflict
  deriving Repr, DecidableEq

/-- `POST /users`: validate the body, reject a duplicate email
(case-sensitive `===`), otherwise append a record with a fresh id and
timestamp and persist. `newId` and `now` stand for `randomUUID()` and
`new Date().toISOString()`. Returns the response plus the persisted
collection. -/
def createUser (users : List User) (newId now name email : String) :
    CreateResult × List User :=
  match userIssues name email with
  | issue :: issues => (.validationError (issue :: issues), users)
  | [] =>
    if users.any (fun u => u.email == email) then
      (.conflict, users)
    else
      let newUser : User :=
        { id := newId, name := name, email := email, createdAt := now }
      (.created newUser, users ++ [newUser])

/-- Response of `GET /users/:id`: 200 with the user or 404. -/
inductive GetUserResult where
  | found (user : User)
  | notFound
  deriving Repr, DecidableEq

/-- `GET /users/:id`: a non-UUID id is 404 before any lookup; otherwise
`users.find(u => u.id === id)`, 404 when absent. -/
def getUser (users : List User) (id : String) : GetUserResult :=
  if !isUuid id then .notFound
  else
    match users.find? (fun u => u.id == id) with
    | some u => .found u
    | none => .notFound

/-- Response of `DELETE /users/:id`: 204 with no body or 404. -/
inductive DeleteResult where
  | deleted
  | notFound
  deriving Repr, DecidableEq

/-- `DELETE /users/:id`: a non-UUID id is 404 before any lookup; otherwise
`findIndex` + `splice(i, 1)` + persist. Returns the response plus the
persisted collection. -/
def deleteUser (users : List User) (id : String) : DeleteResult × List User :=
  if !isUuid id then (.notFound, users)
  else
    match users.findIdx? (fun u => u.id == id) with
    | some i => (.deleted, users.eraseIdx i)
    | none => (.notFound, users)

/-- `GET /users/active`: `users.filter(user => user.isActive === true)`,
in stored order. -/
def listActive (users : List User) : List User :=
  users.filter (fun u => u.isActive == some true)

/-! ### Pagination (`GET /users`) -/

/-- The `pagination` metadata object. -/
structure Pagination where
  page : Nat
  limit : Nat
  total : Nat
  pages : Nat
  deriving Repr, DecidableEq

/-- The `{data, pagination}` response body of `GET /users`. -/
structure ListResult where
  data : List User
  pagination : Pagination
  deriving Repr, DecidableEq

/-- `parseInt(req.query.page) || 1` followed by `if (page < 1) page = 1`:
`none` stands for an absent/unparsable parameter (`parseInt` gave `NaN`);
`0` and negatives both end up as `1`. -/
def coercePage : Option Int → Nat
  | none => 1
  | some v => if v < 1 then 1 else v.toNat

/-- `parseInt(req.query.limit) || 10` followed by
`if (limit < 1) limit = 10`: `NaN`, `0` and negatives all end up as `10`. -/
def coerceLimit : Option Int → Nat
  | none => 10
  | some v => if v < 1 then 10 else v.toNat

/-- The body of `GET /users` after parameter coercion: reverse to newest
first, `pages = Math.ceil(total / limit)`, `slice(startIndex, endIndex)`
with `startIndex = (page-1)*limit` and `endIndex = startIndex + limit`. -/
def listUsers (users : List User) (page limit : Nat) : ListResult :=
  let reversedUsers := users.reverse
  let total := reversedUsers.length
  let pages := (⌈(total : ℚ) / (limit : ℚ)⌉).toNat
  let startIndex := (page - 1) * limit
  ⟨(reversedUsers.drop startIndex).take limit,
   ⟨page, limit, total, pages⟩⟩

/-- The full `GET /users` handler: read, coerce parameters, paginate. -/
def listUsersEndpoint (o : ReadOutcome) (pageQ limitQ : Option Int) :
    ListResult :=
  listUsers (readUsers o) (coercePage pageQ) (coerceLimit limitQ)

/-- The full `GET /users/active` handler. -/
def listActiveEndpoint (o : ReadOutcome) : List User :=
  listActive (readUsers o)

/-- The full `GET /users/:id` handler. -/
def getUserEndpoint (o : ReadOutcome) (id : String) : GetUserResult :=
  getUser (readUsers o) id

/-- The full `DELETE /users/:id` handler. -/
def deleteUserEndpoint (o : ReadOutcome) (id : String) :
    DeleteResult × List User :=
  deleteUser (readUsers o) id

/-! ### Task registry and worker

The registry is `tasks = new Map<string, Task>()`; it is modelled as an
association list with `Map.get`/`Map.set` semantics. The worker's result is
a JS number, modelled as a real. -/

/-- `Task.status`: `"processing" | "completed" | "error"`. -/
inductive TaskStatus where
  | processing
  | completed
  | error
  deriving Repr, DecidableEq

/-- A task record: `{taskId, status, iterations, result?, duration?,
error?}`. -/
structure Task where
  taskId : String
  status : TaskStatus
  iterations : Nat
  result : Option ℝ := none
  duration : Option Nat := none
  errorMsg : Option String := none

/-- `tasks.get(id)` on the association-list model of the `Map`. -/
def lookupTask : List (String × Task) → String → Option Task
  | [], _ => none
  | (k, t) :: rest, id => if k == id then some t else lookupTask rest id

/-- `tasks.set(id, t)`: replace the value at an existing key, insert
otherwise. -/
def setTask : List (String × Task) → String → Task → List (String × Task)
  | [], id, t => [(id, t)]
  | (k, t0) :: rest, id, t =>
    if k == id then (k, t) :: rest else (k, t0) :: setTask rest id t

/-- The record `POST /tasks/heavy` stores at submission time. -/
def newTask (taskId : String) (iterations : Nat) : Task :=
  { taskId := taskId, status := .processing, iterations := iterations }

/-- An event delivered by the worker for one task: `worker.on("message")`
carries the computed result (`duration` is the wall-clock delta measured at
delivery); `worker.on("error")` carries the error message. -/
inductive WorkerEvent where
  | message (result : ℝ) (duration : Nat)
  | errored (msg : String)

/-- The completion callbacks, lines mutating the stored record:
on message the task becomes `completed` with `result` and `duration`; on
error it becomes `error` with the message. -/
def applyEvent (t : Task) : WorkerEvent → Task
  | .message r d =>
    { t with status := .completed, result := some r, duration := some d }
  | .errored m =>
    { t with status := .error, errorMsg := some m }

/-- One registry-mutating step of the system: a successful
`POST /tasks/heavy` (which stores a fresh `processing` record), or the
delivery of a worker completion event for a task. No other part of the
program writes to `tasks`. -/
inductive SystemStep where
  | submit (id : String) (iterations : Nat)
  | finish (id : String) (ev : WorkerEvent)

/-- Apply one step to the registry. A `finish` for an id the registry does
not hold is a no-op (unreachable: every worker is spawned by a submit that
stored the record first, and records are never removed). -/
def applyStep (reg : List (String × Task)) : SystemStep → List (String × Task)
  | .submit id n => setTask reg id (newTask id n)
  | .finish id ev =>
    match lookupTask reg id with
    | some t => setTask reg id (applyEvent t ev)
    | none => reg

/-- Run a sequence of steps from the empty registry the process starts
with. -/
def runSteps (steps : List SystemStep) : List (String × Task) :=
  steps.foldl applyStep []

/-- The status the registry currently records for `id`. -/
def statusOf (reg : List (String × Task)) (id : String) : Option TaskStatus :=
  (lookupTask reg id).map Task.status

/-- How many steps of the trace are submissions for `id`. -/
def countSubmits : List SystemStep → String → Nat
  | [], _ => 0
  | .submit k _ :: rest, id => (if k == id then 1 else 0) + countSubmits rest id
  | .finish _ _ :: rest, id => countSubmits rest id

/-- How many steps of the trace are worker completions for `id`. -/
def countFinishes : List SystemStep → String → Nat
  | [], _ => 0
  | .submit _ _ :: rest, id => countFinishes rest id
  | .finish k _ :: rest, id => (if k == id then 1 else 0) + countFinishes rest id

/-! ### Task submission validation (`TaskSchema`)

`z.number().int().positive().max(1000000)`: the body's `iterations` is a
JSON number, modelled as a rational; `int` is `Number.isInteger`, `positive`
is `> 0`, `max` is `≤ 1000000`. -/

/-- `TaskSchema.parse` succeeds exactly when every chained check passes. -/
def validIterations (q : ℚ) : Bool :=
  q.den == 1 && decide (0 < q) && decide (q ≤ 1000000)

/-- Response of `POST /tasks/heavy`: 202 with
`{taskId, status: "processing", iterations}`, or 400 with the zod issues. -/
inductive SubmitResult where
  | accepted (taskId : String) (status : TaskStatus) (iterations : Nat)
  | validationError
  deriving Repr, DecidableEq

/-- `POST /tasks/heavy`: validate, store a fresh `processing` record, spawn
the worker, answer 202 immediately. On a validation failure nothing is
stored. `newId` stands for `randomUUID()`. Returns the response plus the
updated registry. -/
def submitTask (reg : List (String × Task)) (newId : String) (q : ℚ) :
    SubmitResult × List (String × Task) :=
  if validIterations q then
    let n := q.num.toNat
    (.accepted newId .processing n, setTask reg newId (newTask newId n))
  else
    (.validationError, reg)

/-- Response of `GET /tasks/:taskId`: 200 with the current snapshot or
404. -/
def getTask (reg : List (String × Task)) (taskId : String) : Option Task :=
  if !isUuid taskId then none
  else lookupTask reg taskId

/-! ### Worker computation (`heavyComputation`)

`let result = 0; for (let i = 0; i < iterations; i++) result +=
Math.sqrt(i) * Math.sin(i); return result;` — the float arithmetic is
modelled over the reals. -/

/-- The worker's loop: left fold of `result += sqrt(i) * sin(i)` over
`i = 0, …, iterations - 1`. -/
noncomputable def heavyComputation (iterations : Nat) : ℝ :=
  (List.range iterations).foldl
    (fun (result : ℝ) (i : Nat) => result + Real.sqrt i * Real.sin i) 0

/-! ### Sample data for concrete witnesses -/

/-- A sample stored user record, as in the repository's test script. -/
def mario : User :=
  { id := "123e4567-e89b-12d3-a456-426614174000", name := "Mario Rossi",
    email := "mario@test.com", createdAt := "2024-01-01T00:00:00.000Z" }

/-- Three concretely stored users, oldest first. -/
def sampleUsers : List User :=
  [mario,
   { id := "9f8b6c2a-1111-2222-3333-444455556666", name := "Luigi",
     email := "luigi@test.com", createdAt := "t2" },
   { id := "00000000-0000-4000-8000-000000000001", name := "Peach",
     email := "peach@test.com", createdAt := "t3" }]

/-! ## Theorems -/

/-- Summing `f` with a left fold over `List.range n`, starting from `c`. -/
theorem foldl_add_range (f : Nat → ℝ) (n : Nat) (c : ℝ) :
    (List.range n).foldl (fun result i => result + f i) c
      = c + ∑ i ∈ Finset.range n, f i := by
  induction n generalizing c with
  | zero => simp
  | succ n ih =>
    rw [List.range_succ, List.foldl_append, ih, Finset.sum_range_succ]
    simp [add_assoc]

/-- C8: `GET /users/active` returns exactly the subsequence of users whose
`isActive` field is strictly `true`, in the original stored order: the
result is a sublist of the collection, every returned user has
`isActive === true`, and the result has as many elements as the collection
has such users. -/
theorem listActive_spec (users : List User) :
    (listActive users).Sublist users ∧
    (∀ u ∈ listActive users, u.isActive = some true) ∧
    (listActive users).length = users.countP (fun u => u.isActive == some true) := by
  refine ⟨List.filter_sublist users, ?_, (List.countP_eq_length_filter _ _).symm⟩
  intro u hu
  have := List.of_mem_filter hu
  simpa using this

/-- C9: the worker computation is a pure function of `iterations` equal to
the sum over `i ∈ [0, iterations)` of `sqrt(i) * sin(i)` (a left-to-right
running sum), and it yields `0` for `iterations = 0`. -/
theorem heavyComputation_spec :
    (∀ n : Nat, heavyComputation n
        = ∑ i ∈ Finset.range n, Real.sqrt i * Real.sin i) ∧
    heavyComputation 0 = 0 := by
  constructor
  · intro n
    rw [heavyComputation, foldl_add_range, zero_add]
  · rw [heavyComputation]
    simp

/-- C10: every failed read of the users file (missing file, I/O error,
unparsable JSON) silently yields the empty collection, so `GET /users`
answers 200 with empty data, `GET /users/active` answers 200 with `[]`,
and `GET`/`DELETE /users/:id` answer 404 — no read failure becomes a
500. -/
theorem readFailure_spec (o : ReadOutcome) (id : String)
    (pageQ limitQ : Option Int)
    (h : o = ReadOutcome.fileMissing ∨ o = ReadOutcome.ioError ∨
         o = ReadOutcome.badJson) :
    readUsers o = [] ∧
    (listUsersEndpoint o pageQ limitQ).data = [] ∧
    (listUsersEndpoint o pageQ limitQ).pagination.total = 0 ∧
    listActiveEndpoint o = [] ∧
    getUserEndpoint o id = GetUserResult.notFound ∧
    deleteUserEndpoint o id = (DeleteResult.notFound, []) := by
  have ho : readUsers o = [] := by
    rcases h with h | h | h <;> rw [h] <;> rfl
  refine ⟨ho, ?_, ?_, ?_, ?_, ?_⟩
  · simp [listUsersEndpoint, listUsers, ho]
  · simp [listUsersEndpoint, listUsers, ho]
  · simp [listActiveEndpoint, listActive, ho]
  · rw [getUserEndpoint, ho, getUser]
    cases hu : isUuid id <;> simp [hu]
  · rw [deleteUserEndpoint, ho, deleteUser]
    cases hu : isUuid id <;> simp [hu]

/-- C10 witness: a concrete failed read, at an unparsable file and the id
`"999"` from the repository's own test script. -/
theorem readFailure_spec_witness :
    (ReadOutcome.badJson = ReadOutcome.fileMissing ∨
     ReadOutcome.badJson = ReadOutcome.ioError ∨
     ReadOutcome.badJson = ReadOutcome.badJson) ∧
    (readUsers ReadOutcome.badJson = [] ∧
     (listUsersEndpoint ReadOutcome.badJson none none).data = [] ∧
     (listUsersEndpoint ReadOutcome.badJson none none).pagination.total = 0 ∧
     listActiveEndpoint ReadOutcome.badJson = [] ∧
     getUserEndpoint ReadOutcome.badJson "999" = GetUserResult.notFound ∧
     deleteUserEndpoint ReadOutcome.badJson "999" = (DeleteResult.notFound, [])) :=
  ⟨by decide,
   readFailure_spec ReadOutcome.badJson "999" none none (by decide)⟩

/-- `tasks.get` is `none` when no stored key equals the requested id. -/
theorem lookupTask_eq_none (reg : List (String × Task)) (id : String)
    (h : ∀ kv ∈ reg, kv.1 ≠ id) : lookupTask reg id = none := by
  induction reg with
  | nil => rfl
  | cons kv rest ih =>
    obtain ⟨k, t⟩ := kv
    have hk : k ≠ id := h (k, t) (List.mem_cons_self _ _)
    simp only [lookupTask, beq_eq_false_iff_ne.2 hk, if_false]
    exact ih (fun kv hkv => h kv (List.mem_cons_of_mem _ hkv))

/-- C4: an id that does not match the 8-4-4-4-12 hex UUID shape makes
`GET /users/:id`, `DELETE /users/:id` and `GET /tasks/:taskId` answer 404
whatever the stored collection and registry hold (no lookup happens), and a
well-formed UUID matching no stored record answers 404 as well. -/
theorem uuidGate_spec (id : String) (users : List User)
    (reg : List (String × Task)) :
    (isUuid id = false →
       getUser users id = GetUserResult.notFound ∧
       deleteUser users id = (DeleteResult.notFound, users) ∧
       getTask reg id = none) ∧
    (isUuid id = true → (∀ u ∈ users, u.id ≠ id) →
       getUser users id = GetUserResult.notFound ∧
       deleteUser users id = (DeleteResult.notFound, users)) ∧
    (isUuid id = true → (∀ kv ∈ reg, kv.1 ≠ id) →
       getTask reg id = none) := by
  refine ⟨fun h => ?_, fun h hm => ?_, fun h hm => ?_⟩
  · exact ⟨by simp [getUser, h], by simp [deleteUser, h], by simp [getTask, h]⟩
  · have hf : users.find? (fun u => u.id == id) = none :=
      List.find?_eq_none.2 (fun u hu => by simpa using hm u hu)
    have hfi : users.findIdx? (fun u => u.id == id) = none :=
      List.findIdx?_eq_none_iff.2 (fun u hu => beq_eq_false_iff_ne.2 (hm u hu))
    exact ⟨by simp [getUser, h, hf], by simp [deleteUser, h, hfi]⟩
  · simp [getTask, h, lookupTask_eq_none reg id hm]

/-- C4 witness: the malformed id `"999"`, and a well-formed UUID absent
from a concrete one-user collection and an empty registry. -/
theorem uuidGate_spec_witness :
    (getUser [] "999" = GetUserResult.notFound ∧
     deleteUser [] "999" = (DeleteResult.notFound, []) ∧
     getTask [] "999" = none) ∧
    (getUser [{ id := "123e4567-e89b-12d3-a456-426614174000", name := "Mario",
                email := "mario@test.com", createdAt := "2024-01-01" }]
        "00000000-0000-0000-0000-000000000000" = GetUserResult.notFound) :=
  ⟨(uuidGate_spec "999" [] []).1 (by decide),
   (((uuidGate_spec "00000000-0000-0000-0000-000000000000"
        [{ id := "123e4567-e89b-12d3-a456-426614174000", name := "Mario",
           email := "mario@test.com", createdAt := "2024-01-01" }] []).2.1
      (by decide) (by decide)).1)⟩

/-- C5: `POST /tasks/heavy` answers 202 with the task id, `processing` and
the submitted iterations, and registers the task, exactly when `iterations`
is a positive integer of at most 1,000,000; otherwise it answers 400 and
registers nothing. -/
theorem submitTask_spec (reg : List (String × Task)) (newId : String)
    (q : ℚ) :
    ((q.den = 1 ∧ 0 < q ∧ q ≤ 1000000) →
       submitTask reg newId q
         = (SubmitResult.accepted newId TaskStatus.processing q.num.toNat,
            setTask reg newId (newTask newId q.num.toNat))) ∧
    (¬(q.den = 1 ∧ 0 < q ∧ q ≤ 1000000) →
       submitTask reg newId q = (SubmitResult.validationError, reg)) := by
  have hv : validIterations q = true ↔ (q.den = 1 ∧ 0 < q ∧ q ≤ 1000000) := by
    simp [validIterations, and_assoc]
  constructor
  · intro h
    rw [submitTask, if_pos (hv.2 h)]
  · intro h
    rw [submitTask, if_neg (fun hh => h (hv.1 hh))]

/-- C5 witness: `iterations = 5` is accepted and stored; `iterations = 0`,
`-3`, `7/2` and `1000001` are each rejected with the registry unchanged. -/
theorem submitTask_spec_witness :
    submitTask [] "task-1" 5
      = (SubmitResult.accepted "task-1" TaskStatus.processing 5,
         setTask [] "task-1" (newTask "task-1" 5)) ∧
    submitTask [] "task-1" 0 = (SubmitResult.validationError, []) ∧
    submitTask [] "task-1" (-3) = (SubmitResult.validationError, []) ∧
    submitTask [] "task-1" (7 / 2) = (SubmitResult.validationError, []) ∧
    submitTask [] "task-1" 1000001 = (SubmitResult.validationError, []) :=
  ⟨(submitTask_spec [] "task-1" 5).1 (by norm_num),
   (submitTask_spec [] "task-1" 0).2 (by norm_num),
   (submitTask_spec [] "task-1" (-3)).2 (by norm_num),
   (submitTask_spec [] "task-1" (7 / 2)).2 (by norm_num),
   (submitTask_spec [] "task-1" 1000001).2 (by norm_num)⟩

/-- C3 counterexample: a create request whose email duplicates a stored
user's but whose name fails validation is answered with the 400 validation
error, not the 409 conflict the claim promises — `UserSchema.parse` runs
before the duplicate check. -/
theorem createUser_conflict_counterexample :
    ([mario].any (fun u => u.email == "mario@test.com")) = true ∧
    (createUser [mario] "9f8b6c2a-1111-2222-3333-444455556666" "t2"
        "x" "mario@test.com").1
      = CreateResult.validationError [UserIssue.nameTooShort] ∧
    (createUser [mario] "9f8b6c2a-1111-2222-3333-444455556666" "t2"
        "x" "mario@test.com").1 ≠ CreateResult.conflict := by
  decide

/-- C3 (amended): for every create request that passes input validation and
whose email equals a stored user's email (case-sensitive `===`), create
answers 409 and leaves the collection unchanged; hence two validated
creates with the same email, starting from a collection without that email,
leave exactly one record with that email and the second answers 409. -/
theorem createUser_conflict (users : List User)
    (id1 id2 t1 t2 name1 name2 email : String)
    (hval1 : userIssues name1 email = [])
    (hval2 : userIssues name2 email = []) :
    ((users.any (fun u => u.email == email)) = true →
       createUser users id1 t1 name1 email = (CreateResult.conflict, users)) ∧
    (users.countP (fun u => u.email == email) = 0 →
       (createUser (createUser users id1 t1 name1 email).2 id2 t2
           name2 email).1 = CreateResult.conflict ∧
       ((createUser (createUser users id1 t1 name1 email).2 id2 t2
           name2 email).2).countP (fun u => u.email == email) = 1) := by
  constructor
  · intro h
    simp only [createUser, hval1, h, if_true]
  · intro h0
    have hany : (users.any (fun u => u.email == email)) = false := by
      rw [List.any_eq_false]
      intro u hu
      simpa using (List.countP_eq_zero.1 h0) u hu
    have h1 : (createUser users id1 t1 name1 email).2
        = users ++ [{ id := id1, name := name1, email := email,
                      createdAt := t1 }] := by
      simp [createUser, hval1, hany]
    have hany2 : ((users ++ [({ id := id1, name := name1, email := email,
                                createdAt := t1 } : User)]).any
        (fun u => u.email == email)) = true := by
      rw [List.any_eq_true]
      exact ⟨_, List.mem_append_right _ (List.mem_singleton_self _), by simp⟩
    constructor
    · rw [h1]
      simp only [createUser, hval2, hany2, if_true]
    · rw [h1]
      simp only [createUser, hval2, hany2, if_true]
      rw [List.countP_append, h0]
      simp

/-- C3 witness: the conflict branch on a concrete one-user collection, and
the create-create sequence from the empty collection. -/
theorem createUser_conflict_witness :
    (createUser [mario] "9f8b6c2a-1111-2222-3333-444455556666" "t2"
        "Luigi" "mario@test.com") = (CreateResult.conflict, [mario]) ∧
    ((createUser (createUser [] "9f8b6c2a-1111-2222-3333-444455556666" "t1"
         "Mario" "a@b.cc").2 "123e4567-e89b-12d3-a456-426614174000" "t2"
         "Luigi" "a@b.cc").1 = CreateResult.conflict ∧
     ((createUser (createUser [] "9f8b6c2a-1111-2222-3333-444455556666" "t1"
         "Mario" "a@b.cc").2 "123e4567-e89b-12d3-a456-426614174000" "t2"
         "Luigi" "a@b.cc").2).countP (fun u => u.email == "a@b.cc") = 1) :=
  ⟨(createUser_conflict [mario] "9f8b6c2a-1111-2222-3333-444455556666" ""
      "t2" "" "Luigi" "Luigi" "mario@test.com" (by decide) (by decide)).1
      (by decide),
   (createUser_conflict [] "9f8b6c2a-1111-2222-3333-444455556666"
      "123e4567-e89b-12d3-a456-426614174000" "t1" "t2" "Mario" "Luigi"
      "a@b.cc" (by decide) (by decide)).2 (by decide)⟩

/-- C6 counterexample: a request with a valid name and a syntactically
valid email is not answered 201 when the email already belongs to a stored
user — it is answered 409, so validity of the input alone does not
guarantee creation. -/
theorem createUser_valid_counterexample :
    2 ≤ "Luigi".length ∧ isEmail "mario@test.com" = true ∧
    (createUser [mario] "9f8b6c2a-1111-2222-3333-444455556666" "t2"
        "Luigi" "mario@test.com").1 = CreateResult.conflict := by
  decide

/-- C6 (amended): for every input with a name of length at least 2, a
syntactically valid email, and an email not already stored, create answers
201 with the created record (fresh server-assigned id and timestamp,
appended to the collection), and `GET /users/:id` on the assigned id then
returns a user with exactly the submitted name and email; conversely a
name shorter than 2 or a malformed email is answered 400 with the
violations listed. -/
theorem createUser_roundtrip (users : List User) (newId now name email : String)
    (hname : 2 ≤ name.length) (hemail : isEmail email = true)
    (hdup : ∀ u ∈ users, u.email ≠ email)
    (hid : isUuid newId = true)
    (hfresh : ∀ u ∈ users, u.id ≠ newId) :
    createUser users newId now name email
      = (CreateResult.created
           { id := newId, name := name, email := email, createdAt := now },
         users ++ [{ id := newId, name := name, email := email,
                     createdAt := now }]) ∧
    getUser (users ++ [{ id := newId, name := name, email := email,
                         createdAt := now }]) newId
      = GetUserResult.found
          { id := newId, name := name, email := email, createdAt := now } ∧
    (∀ name2 email2 : String, name2.length < 2 ∨ isEmail email2 = false →
       createUser users newId now name2 email2
           = (CreateResult.validationError (userIssues name2 email2), users) ∧
       userIssues name2 email2 ≠ [] ∧
       (name2.length < 2 → UserIssue.nameTooShort ∈ userIssues name2 email2) ∧
       (isEmail email2 = false →
          UserIssue.invalidEmail ∈ userIssues name2 email2)) := by
  have hval : userIssues name email = [] := by
    simp [userIssues, Nat.not_lt.2 hname, hemail]
  have hany : (users.any (fun u => u.email == email)) = false := by
    rw [List.any_eq_false]
    intro u hu
    simpa using hdup u hu
  refine ⟨by simp [createUser, hval, hany], ?_, ?_⟩
  · have hf : users.find? (fun u => u.id == newId) = none :=
      List.find?_eq_none.2 (fun u hu => by simpa using hfresh u hu)
    simp [getUser, hid, List.find?_append, hf]
  · intro name2 email2 h2
    have hne : userIssues name2 email2 ≠ [] := by
      rcases h2 with h2 | h2 <;> simp [userIssues, h2]
    obtain ⟨i, is, hx⟩ := List.exists_cons_of_ne_nil hne
    refine ⟨?_, hne, fun hs => by simp [userIssues, hs],
            fun he => by simp [userIssues, he]⟩
    rw [hx]
    simp [createUser, hx]

/-- C6 witness: creating `Mario` with a fresh email in the empty collection
and reading it back through its assigned UUID. -/
theorem createUser_roundtrip_witness :
    createUser [] "123e4567-e89b-12d3-a456-426614174000" "t1"
        "Mario" "mario@test.com"
      = (CreateResult.created
           { id := "123e4567-e89b-12d3-a456-426614174000", name := "Mario",
             email := "mario@test.com", createdAt := "t1" },
         [{ id := "123e4567-e89b-12d3-a456-426614174000", name := "Mario",
            email := "mario@test.com", createdAt := "t1" }]) ∧
    getUser [{ id := "123e4567-e89b-12d3-a456-426614174000", name := "Mario",
               email := "mario@test.com", createdAt := "t1" }]
        "123e4567-e89b-12d3-a456-426614174000"
      = GetUserResult.found
          { id := "123e4567-e89b-12d3-a456-426614174000", name := "Mario",
            email := "mario@test.com", createdAt := "t1" } := by
  have h := createUser_roundtrip [] "123e4567-e89b-12d3-a456-426614174000"
    "t1" "Mario" "mario@test.com" (by decide) (by decide) (by decide)
    (by decide) (by decide)
  exact ⟨h.1, by simpa using h.2.1⟩

/-- `GET /users/:id` answers 404 whenever no stored record carries the
requested id (whether or not the id is well-formed). -/
theorem getUser_notFound_of_absent (users : List User) (id : String)
    (h : ∀ u ∈ users, u.id ≠ id) : getUser users id = GetUserResult.notFound := by
  cases hu : isUuid id with
  | false => simp [getUser, hu]
  | true =>
    have hf : users.find? (fun u => u.id == id) = none :=
      List.find?_eq_none.2 (fun u hu2 => by simpa using h u hu2)
    simp [getUser, hu, hf]

/-- `DELETE /users/:id` answers 404 and keeps the collection whenever no
stored record carries the requested id. -/
theorem deleteUser_notFound_of_absent (users : List User) (id : String)
    (h : ∀ u ∈ users, u.id ≠ id) :
    deleteUser users id = (DeleteResult.notFound, users) := by
  cases hu : isUuid id with
  | false => simp [deleteUser, hu]
  | true =>
    have hf : users.findIdx? (fun u => u.id == id) = none :=
      List.findIdx?_eq_none_iff.2 (fun u hu2 => beq_eq_false_iff_ne.2 (h u hu2))
    simp [deleteUser, hu, hf]

/-- With pairwise-distinct ids, `findIndex` + `splice(i, 1)` removes
exactly the records matching the id: it agrees with filtering the id
out. -/
theorem eraseIdx_findIdx_eq_filter (users : List User) (id : String)
    (hnodup : (users.map User.id).Nodup) (hmem : id ∈ users.map User.id) :
    (match users.findIdx? (fun u => u.id == id) with
     | some i => users.eraseIdx i
     | none => users) = users.filter (fun u => !(u.id == id)) := by
  induction users with
  | nil => cases hmem
  | cons u rest ih =>
    rw [List.map_cons, List.nodup_cons] at hnodup
    by_cases hu : u.id = id
    · have hrest : rest.filter (fun v => !(v.id == id)) = rest :=
        List.filter_eq_self.2 (fun v hv => by
          have hne : v.id ≠ id := fun hv2 =>
            hnodup.1 (hu ▸ hv2 ▸ List.mem_map_of_mem User.id hv)
          simpa using hne)
      simp [List.findIdx?_cons, hu, hrest]
    · have hmem2 : id ∈ rest.map User.id := by
        rcases List.mem_cons.1 hmem with h | h
        · exact absurd h.symm hu
        · exact h
      have hrec := ih hnodup.2 hmem2
      rw [List.findIdx?_cons, if_neg (by simp [hu]), List.findIdx?_succ]
      cases hj : rest.findIdx? (fun v => v.id == id) with
      | none =>
        rcases List.mem_map.1 hmem2 with ⟨v, hv, hvid⟩
        have := List.findIdx?_eq_none_iff.1 hj v hv
        simp [hvid] at this
      | some j =>
        rw [hj] at hrec
        have hrec2 : rest.eraseIdx j
            = rest.filter (fun v => !(v.id == id)) := hrec
        simp only [hj, Option.map_some', List.eraseIdx_cons_succ,
          List.filter_cons, hrec2]
        simp [hu]

/-- Exactly one stored record matches an id that occurs in a
pairwise-distinct id column. -/
theorem countP_id_eq_one (users : List User) (id : String)
    (hnodup : (users.map User.id).Nodup) (hmem : id ∈ users.map User.id) :
    users.countP (fun u => u.id == id) = 1 := by
  have hle : users.countP (fun u => u.id == id) ≤ 1 := by
    have hc := List.nodup_iff_count_le_one.1 hnodup id
    rw [List.count, List.countP_map] at hc
    have heq : ((fun x => x == id) ∘ User.id)
        = (fun u : User => u.id == id) := rfl
    rwa [heq] at hc
  have hpos : 0 < users.countP (fun u => u.id == id) := by
    rcases List.mem_map.1 hmem with ⟨v, hv, hvid⟩
    exact List.countP_pos_iff.2 ⟨v, hv, by simp [hvid]⟩
  omega

/-- C7: when the stored collection (whose ids are pairwise distinct, as the
data model's server-assigned unique identifiers are) holds the well-formed
id, `DELETE /users/:id` answers 204 with no body and persists the
collection with exactly that record removed — a sublist of the original,
keeping every other record in order — after which `GET /users/:id` answers
404; a malformed or absent id leaves the collection unchanged and answers
404. -/
theorem deleteUser_spec (users : List User) (id : String)
    (hid : isUuid id = true)
    (hnodup : (users.map User.id).Nodup)
    (hmem : id ∈ users.map User.id) :
    deleteUser users id
      = (DeleteResult.deleted, users.filter (fun u => !(u.id == id))) ∧
    (users.filter (fun u => !(u.id == id))).Sublist users ∧
    (users.filter (fun u => !(u.id == id))).length + 1 = users.length ∧
    getUser (users.filter (fun u => !(u.id == id))) id
      = GetUserResult.notFound ∧
    (∀ id2 : String, isUuid id2 = false ∨ id2 ∉ users.map User.id →
       deleteUser users id2 = (DeleteResult.notFound, users)) := by
  have herase := eraseIdx_findIdx_eq_filter users id hnodup hmem
  refine ⟨?_, List.filter_sublist users, ?_, ?_, ?_⟩
  · rw [deleteUser, hid]
    cases hj : users.findIdx? (fun u => u.id == id) with
    | none =>
      rcases List.mem_map.1 hmem with ⟨v, hv, hvid⟩
      have := List.findIdx?_eq_none_iff.1 hj v hv
      simp [hvid] at this
    | some j =>
      rw [hj] at herase
      simpa using herase
  · have hperm := (List.filter_append_perm
      (fun u => u.id == id) users).length_eq
    rw [List.length_append] at hperm
    have hcount : (users.filter (fun u => u.id == id)).length = 1 := by
      rw [← List.countP_eq_length_filter]
      exact countP_id_eq_one users id hnodup hmem
    omega
  · refine getUser_notFound_of_absent _ _ (fun u hu => ?_)
    have := (List.mem_filter.1 hu).2
    simpa using this
  · intro id2 h2
    rcases h2 with h2 | h2
    · simp [deleteUser, h2]
    · refine deleteUser_notFound_of_absent _ _ (fun u hu hup => ?_)
      exact h2 (hup ▸ List.mem_map_of_mem User.id hu)

/-- C7 witness: deleting the first of two concretely stored users removes
exactly that record, the other remains, and re-reading the deleted id
gives 404. -/
theorem deleteUser_spec_witness :
    deleteUser [mario,
        { id := "9f8b6c2a-1111-2222-3333-444455556666", name := "Luigi",
          email := "luigi@test.com", createdAt := "t2" }]
        "123e4567-e89b-12d3-a456-426614174000"
      = (DeleteResult.deleted,
         [{ id := "9f8b6c2a-1111-2222-3333-444455556666", name := "Luigi",
            email := "luigi@test.com", createdAt := "t2" }]) ∧
    getUser [{ id := "9f8b6c2a-1111-2222-3333-444455556666", name := "Luigi",
               email := "luigi@test.com", createdAt := "t2" }]
        "123e4567-e89b-12d3-a456-426614174000" = GetUserResult.notFound := by
  have h := deleteUser_spec [mario,
      { id := "9f8b6c2a-1111-2222-3333-444455556666", name := "Luigi",
        email := "luigi@test.com", createdAt := "t2" }]
    "123e4567-e89b-12d3-a456-426614174000" (by decide) (by decide) (by decide)
  exact ⟨by simpa using h.1, by simpa using h.2.2.2.1⟩


/-- C1: with a stored collection of `N` users and coerced parameters
`P, L ≥ 1`, `GET /users` returns exactly `min L (N - (P-1)·L)` records
(truncated subtraction playing `max 0`), `pagination.pages = ⌈N / L⌉`, and
the `k`-th returned record is the `(N - 1 - ((P-1)·L + k))`-th stored one —
newest-created first, the reverse of stored (append) order. -/
theorem listUsers_spec (users : List User) (P L : Nat)
    (hP : 1 ≤ P) (hL : 1 ≤ L) :
    (listUsers users P L).data.length
        = min L (users.length - (P - 1) * L) ∧
    ((listUsers users P L).pagination.pages : ℤ)
        = ⌈(users.length : ℚ) / (L : ℚ)⌉ ∧
    (∀ k : Nat, k < (listUsers users P L).data.length →
       (listUsers users P L).data[k]?
         = users[users.length - 1 - ((P - 1) * L + k)]?) := by
  have hdata : (listUsers users P L).data
      = (users.reverse.drop ((P - 1) * L)).take L := rfl
  have hlen : (listUsers users P L).data.length
      = min L (users.length - (P - 1) * L) := by
    rw [hdata, List.length_take, List.length_drop, List.length_reverse]
  refine ⟨hlen, ?_, ?_⟩
  · have hnn : (0 : ℤ) ≤ ⌈(users.length : ℚ) / (L : ℚ)⌉ :=
      Int.ceil_nonneg (div_nonneg (Nat.cast_nonneg _) (Nat.cast_nonneg _))
    have hpages : (listUsers users P L).pagination.pages
        = (⌈(users.reverse.length : ℚ) / (L : ℚ)⌉).toNat := rfl
    rw [hpages, List.length_reverse, Int.toNat_of_nonneg hnn]
  · intro k hk
    rw [hlen] at hk
    have hkL : k < L := lt_of_lt_of_le hk (min_le_left _ _)
    have hkN : (P - 1) * L + k < users.length := by
      have := lt_of_lt_of_le hk (min_le_right _ _)
      omega
    rw [hdata, List.getElem?_take, if_pos hkL, List.getElem?_drop,
      List.getElem?_reverse (by simpa using hkN)]

/-- C1 witness: page 2 with limit 2 over three stored users — one record,
`pages = ⌈3/2⌉`, and the record returned is the oldest stored one. -/
theorem listUsers_spec_witness :
    (listUsers sampleUsers 2 2).data.length
        = min 2 (sampleUsers.length - (2 - 1) * 2) ∧
    ((listUsers sampleUsers 2 2).pagination.pages : ℤ)
        = ⌈(sampleUsers.length : ℚ) / (2 : ℚ)⌉ ∧
    (∀ k : Nat, k < (listUsers sampleUsers 2 2).data.length →
       (listUsers sampleUsers 2 2).data[k]?
         = sampleUsers[sampleUsers.length - 1 - ((2 - 1) * 2 + k)]?) :=
  listUsers_spec sampleUsers 2 2 (by decide) (by decide)

/-- `tasks.get` after `tasks.set` at the same key yields the stored
record. -/
theorem lookupTask_setTask_self (reg : List (String × Task)) (id : String)
    (t : Task) : lookupTask (setTask reg id t) id = some t := by
  induction reg with
  | nil => simp [setTask, lookupTask]
  | cons kv rest ih =>
    obtain ⟨k, t0⟩ := kv
    by_cases hk : k = id
    · simp [setTask, lookupTask, hk]
    · simp [setTask, lookupTask, hk, ih]

/-- `tasks.set` at one key leaves every other key's entry unchanged. -/
theorem lookupTask_setTask_other (reg : List (String × Task))
    (id id2 : String) (t : Task) (h : id2 ≠ id) :
    lookupTask (setTask reg id t) id2 = lookupTask reg id2 := by
  induction reg with
  | nil => simp [setTask, lookupTask, beq_eq_false_iff_ne.2 (Ne.symm h)]
  | cons kv rest ih =>
    obtain ⟨k, t0⟩ := kv
    by_cases hk : k = id
    · subst hk
      simp [setTask, lookupTask, beq_eq_false_iff_ne.2 (Ne.symm h)]
    · by_cases hk2 : k = id2
      · simp [setTask, lookupTask, hk, hk2, h]
      · simp [setTask, lookupTask, hk, hk2, ih]

/-- Submission counts add up over concatenated traces. -/
theorem countSubmits_append (p q : List SystemStep) (id : String) :
    countSubmits (p ++ q) id = countSubmits p id + countSubmits q id := by
  induction p with
  | nil => simp [countSubmits]
  | cons x p ih =>
    cases x with
    | submit k n =>
      show (if k == id then 1 else 0) + countSubmits (p ++ q) id
          = ((if k == id then 1 else 0) + countSubmits p id)
            + countSubmits q id
      rw [ih]
      omega
    | finish k ev => exact ih

/-- Completion counts add up over concatenated traces. -/
theorem countFinishes_append (p q : List SystemStep) (id : String) :
    countFinishes (p ++ q) id = countFinishes p id + countFinishes q id := by
  induction p with
  | nil => simp [countFinishes]
  | cons x p ih =>
    cases x with
    | submit k n => exact ih
    | finish k ev =>
      show (if k == id then 1 else 0) + countFinishes (p ++ q) id
          = ((if k == id then 1 else 0) + countFinishes p id)
            + countFinishes q id
      rw [ih]
      omega

/-- Extending a trace on the left cannot lose submissions. -/
theorem countSubmits_cons_le (x : SystemStep) (p : List SystemStep)
    (id : String) : countSubmits p id ≤ countSubmits (x :: p) id := by
  cases x with
  | submit k n =>
    show countSubmits p id ≤ (if k == id then 1 else 0) + countSubmits p id
    cases k == id <;> simp
  | finish k ev => exact le_refl _

/-- Extending a trace on the left cannot lose completions. -/
theorem countFinishes_cons_le (x : SystemStep) (p : List SystemStep)
    (id : String) : countFinishes p id ≤ countFinishes (x :: p) id := by
  cases x with
  | submit k n => exact le_refl _
  | finish k ev =>
    show countFinishes p id ≤ (if k == id then 1 else 0) + countFinishes p id
    cases k == id <;> simp

/-- A run of steps none of which submits or finishes `id` leaves the
registry entry for `id` untouched. -/
theorem foldl_untouched (q : List SystemStep) (reg : List (String × Task))
    (id : String) (hs : countSubmits q id = 0) (hf : countFinishes q id = 0) :
    lookupTask (q.foldl applyStep reg) id = lookupTask reg id := by
  induction q generalizing reg with
  | nil => rfl
  | cons x q ih =>
    rw [List.foldl_cons]
    cases x with
    | submit k n =>
      have hs2 : (if k == id then 1 else 0) + countSubmits q id = 0 := hs
      have hf2 : countFinishes q id = 0 := hf
      by_cases hk : k = id
      · rw [hk] at hs2
        simp at hs2
      · rw [ih (applyStep reg (SystemStep.submit k n)) (by omega) hf2]
        exact lookupTask_setTask_other reg k id _ (Ne.symm hk)
    | finish k ev =>
      have hs2 : countSubmits q id = 0 := hs
      have hf2 : (if k == id then 1 else 0) + countFinishes q id = 0 := hf
      by_cases hk : k = id
      · rw [hk] at hf2
        simp at hf2
      · rw [ih (applyStep reg (SystemStep.finish k ev)) hs2 (by omega)]
        rw [applyStep]
        cases hl : lookupTask reg k with
        | some t => exact lookupTask_setTask_other reg k id _ (Ne.symm hk)
        | none => rfl

/-- If running steps leaves an entry for `id`, either the entry existed
before or some step submitted `id`: `finish` never creates an entry. -/
theorem submit_of_lookup_some (p : List SystemStep)
    (reg : List (String × Task)) (id : String)
    (h : lookupTask (p.foldl applyStep reg) id ≠ none) :
    lookupTask reg id ≠ none ∨ 1 ≤ countSubmits p id := by
  induction p generalizing reg with
  | nil => exact Or.inl h
  | cons x p ih =>
    rw [List.foldl_cons] at h
    rcases ih (applyStep reg x) h with h2 | h2
    · cases x with
      | submit k n =>
        by_cases hk : k = id
        · right
          subst hk
          have he : countSubmits (SystemStep.submit k n :: p) k
              = 1 + countSubmits p k := by
            show (if k == k then 1 else 0) + countSubmits p k = _
            simp
          omega
        · left
          rwa [applyStep, lookupTask_setTask_other reg k id _ (Ne.symm hk)]
            at h2
      | finish k ev =>
        left
        rw [applyStep] at h2
        cases hl : lookupTask reg k with
        | some t =>
          rw [hl] at h2
          by_cases hk : k = id
          · subst hk
            rw [hl]
            exact Option.some_ne_none t
          · rwa [lookupTask_setTask_other reg k id _ (Ne.symm hk)] at h2
        | none => rwa [hl] at h2
    · right
      exact le_trans h2 (countSubmits_cons_le x p id)

/-- A terminal (`completed`/`error`) recorded status can only come from a
`finish` step: submissions record `processing`. -/
theorem finish_of_terminal (p : List SystemStep) (reg : List (String × Task))
    (id : String) (s : TaskStatus) (hs : s ≠ TaskStatus.processing)
    (h : statusOf (p.foldl applyStep reg) id = some s) :
    1 ≤ countFinishes p id ∨ statusOf reg id = some s := by
  induction p generalizing reg with
  | nil => exact Or.inr h
  | cons x p ih =>
    rw [List.foldl_cons] at h
    rcases ih (applyStep reg x) h with h2 | h2
    · left
      exact le_trans h2 (countFinishes_cons_le x p id)
    · cases x with
      | submit k n =>
        by_cases hk : k = id
        · subst hk
          rw [statusOf, applyStep, lookupTask_setTask_self] at h2
          simp [newTask] at h2
          exact absurd h2.symm hs
        · right
          rwa [statusOf, applyStep,
            lookupTask_setTask_other reg k id _ (Ne.symm hk)] at h2
      | finish k ev =>
        by_cases hk : k = id
        · left
          subst hk
          have he : 1 ≤ countFinishes (SystemStep.finish k ev :: p) k := by
            show 1 ≤ (if k == k then 1 else 0) + countFinishes p k
            simp
          exact he
        · right
          rw [statusOf, applyStep] at h2
          cases hl : lookupTask reg k with
          | some t =>
            rw [hl, lookupTask_setTask_other reg k id _ (Ne.symm hk)] at h2
            exact h2
          | none =>
            rw [hl] at h2
            exact h2



/-- C2: every submission stores its task as `processing`; a worker message
turns it into `completed` with result and duration, a worker error into
`error` with the message; and in any step sequence where each task id is
submitted at most once and receives at most one completion event (the
worker posts exactly one message or fails once), a task observed
`completed` or `error` keeps that status through every later step of the
system. -/
theorem taskLifecycle_spec (p q : List SystemStep) (id : String)
    (s : TaskStatus)
    (hsub : countSubmits (p ++ q) id ≤ 1)
    (hfin : countFinishes (p ++ q) id ≤ 1)
    (hstat : statusOf (runSteps p) id = some s)
    (hterm : s ≠ TaskStatus.processing) :
    statusOf (runSteps (p ++ q)) id = some s ∧
    (∀ reg n, statusOf (applyStep reg (SystemStep.submit id n)) id
        = some TaskStatus.processing) ∧
    (∀ (n : Nat) (r : ℝ) (d : Nat),
       lookupTask (runSteps [SystemStep.submit id n,
           SystemStep.finish id (WorkerEvent.message r d)]) id
         = some { taskId := id, status := TaskStatus.completed,
                  iterations := n, result := some r, duration := some d }) ∧
    (∀ (n : Nat) (m : String),
       lookupTask (runSteps [SystemStep.submit id n,
           SystemStep.finish id (WorkerEvent.errored m)]) id
         = some { taskId := id, status := TaskStatus.error, iterations := n,
                  errorMsg := some m }) := by
  refine ⟨?_, ?_, ?_, ?_⟩
  · have hlook : lookupTask (runSteps p) id ≠ none := by
      rw [statusOf] at hstat
      intro hn
      rw [hn] at hstat
      cases hstat
    have hsubp : 1 ≤ countSubmits p id := by
      rcases submit_of_lookup_some p [] id hlook with h | h
      · exact absurd rfl h
      · exact h
    have hfinp : 1 ≤ countFinishes p id := by
      rcases finish_of_terminal p [] id s hterm hstat with h | h
      · exact h
      · cases h
    have happs : countSubmits (p ++ q) id
        = countSubmits p id + countSubmits q id := countSubmits_append p q id
    have happf : countFinishes (p ++ q) id
        = countFinishes p id + countFinishes q id :=
      countFinishes_append p q id
    have hqs : countSubmits q id = 0 := by omega
    have hqf : countFinishes q id = 0 := by omega
    rw [runSteps, List.foldl_append]
    rw [statusOf, foldl_untouched q _ id hqs hqf]
    exact hstat
  · intro reg n
    rw [statusOf, applyStep, lookupTask_setTask_self]
    rfl
  · intro n r d
    simp [runSteps, applyStep, lookupTask, setTask, newTask, applyEvent]
  · intro n m
    simp [runSteps, applyStep, lookupTask, setTask, newTask, applyEvent]

/-- C2 witness: submit-then-complete for one task followed by an unrelated
submission — the first task stays `completed`. -/
theorem taskLifecycle_spec_witness :
    statusOf (runSteps ([SystemStep.submit "a1" 5,
        SystemStep.finish "a1" (WorkerEvent.message 0 7)] ++
        [SystemStep.submit "b2" 3])) "a1" = some TaskStatus.completed :=
  (taskLifecycle_spec [SystemStep.submit "a1" 5,
      SystemStep.finish "a1" (WorkerEvent.message 0 7)]
      [SystemStep.submit "b2" 3] "a1" TaskStatus.completed
      (by decide) (by decide) (by rfl) (by decide)).1

end NodeBasics
